import Mathlib

/-!
Verification of the LinearTransformations repository: a shallow embedding of
the linear-algebra utilities (`src/utils/linearAlgebra.ts`), the app-state
handlers (`App.tsx`), and the canvas camera / pointer / wheel handlers
(`CanvasView.tsx`), with theorems settling the specification claims.

All JavaScript numbers are modelled as exact rationals (ℚ); the only
transcendental operation in the sources, `Math.exp(-deltaY * 0.001)` in the
wheel handler, is modelled by quantifying over an arbitrary rational zoom
factor, which covers every value the float expression can take.
-/

namespace LinTrans

/-- 2×2 matrix `{a, b, c, d}` from `src/types.ts`: column 1 is (a, c),
column 2 is (b, d). -/
structure Matrix where
  a : ℚ
  b : ℚ
  c : ℚ
  d : ℚ
  deriving DecidableEq, Repr

/-- Vector2 `{x, y}` from `src/types.ts`. -/
@[ext]
structure Vector2 where
  x : ℚ
  y : ℚ
  deriving DecidableEq, Repr

/-- PinnedVector from `src/types.ts`: a vector plus its transformed image
(Tx, Ty) captured at pin time. -/
structure PinnedVector where
  x : ℚ
  y : ℚ
  Tx : ℚ
  Ty : ℚ
  deriving DecidableEq, Repr

/-- GridMode from `src/types.ts`. -/
inductive GridMode where
  | original
  | transformed
  | both
  deriving DecidableEq, Repr

/-- Camera state `{offsetX, offsetY, zoom}` from `CanvasView.tsx` /
`AppState.camera`. -/
structure Camera where
  offsetX : ℚ
  offsetY : ℚ
  zoom : ℚ
  deriving DecidableEq, Repr

/-- AppState from `src/types.ts`. -/
structure AppState where
  matrix : Matrix
  t : ℚ
  probeVector : Vector2
  pinnedVectors : List PinnedVector
  camera : Camera
  gridMode : GridMode
  presetId : Option String
  isPlaying : Bool
  deriving DecidableEq, Repr

/-- Screen-pixel point, the `ScreenPoint` type of `CanvasView.tsx`. -/
@[ext]
structure ScreenPoint where
  x : ℚ
  y : ℚ
  deriving DecidableEq, Repr

/-! ## Linear-algebra utilities (`src/utils/linearAlgebra.ts`) -/

/-- `identityMatrix` from `linearAlgebra.ts`. -/
def identityMatrix : Matrix := { a := 1, b := 0, c := 0, d := 1 }

/-- `multiplyMatrixVector` from `linearAlgebra.ts`. -/
def multiplyMatrixVector (matrix : Matrix) (vector : Vector2) : Vector2 :=
  { x := matrix.a * vector.x + matrix.b * vector.y
    y := matrix.c * vector.x + matrix.d * vector.y }

/-- `determinant` from `linearAlgebra.ts`. -/
def determinant (matrix : Matrix) : ℚ :=
  matrix.a * matrix.d - matrix.b * matrix.c

/-- `interpolatePoint` from `linearAlgebra.ts`. -/
def interpolatePoint (point : Vector2) (matrix : Matrix) (t : ℚ) : Vector2 :=
  let transformed := multiplyMatrixVector matrix point
  { x := (1 - t) * point.x + t * transformed.x
    y := (1 - t) * point.y + t * transformed.y }

/-- `lerp` from `linearAlgebra.ts`. -/
def lerp (a b t : ℚ) : ℚ := (1 - t) * a + t * b

/-- `clamp` from `linearAlgebra.ts`: `Math.min(max, Math.max(min, value))`. -/
def clamp (value lo hi : ℚ) : ℚ := min hi (max lo value)

/-- JavaScript number as seen by `formatNumber`: either a finite value
(modelled exactly as a rational) or one of the non-finite IEEE values. -/
inductive JSNum where
  | nan
  | posInf
  | negInf
  | finite (val : ℚ)
  deriving DecidableEq, Repr

/-- Left-pads a digit string with zeros to length `p`. -/
def padZeros (s : String) (p : Nat) : String :=
  if s.length < p then String.mk (List.replicate (p - s.length) '0') ++ s else s

/-- Modelled from ECMAScript `Number.prototype.toFixed` (a platform builtin,
not repository code): the rounded integer `n` minimising `|n / 10^p - |v||`,
ties resolved to the larger `n`. -/
def toFixedInt (v : ℚ) (p : Nat) : Nat :=
  (⌊|v| * (10 : ℚ) ^ p + 1 / 2⌋).toNat

/-- Renders the scaled integer `n` as a decimal numeral with `p` digits after
the point. -/
def renderFixed (n : Nat) (p : Nat) : String :=
  if p = 0 then toString n
  else toString (n / 10 ^ p) ++ "." ++ padZeros (toString (n % 10 ^ p)) p

/-- Modelled from ECMAScript `Number.prototype.toFixed` for finite inputs:
emit a sign for negative values, then round the magnitude to `p` decimal
places (ties away from... toward the larger integer) and render it. -/
def toFixedQ (v : ℚ) (p : Nat) : String :=
  (if v < 0 then "-" else "") ++ renderFixed (toFixedInt v p) p

/-- Exact rational value denoted by the string `toFixedQ v p`. -/
def toFixedVal (v : ℚ) (p : Nat) : ℚ :=
  (if v < 0 then -1 else 1) * (toFixedInt v p : ℚ) / (10 : ℚ) ^ p

/-- `formatNumber` from `linearAlgebra.ts`: the sentinel em dash for
non-finite inputs, `value.toFixed(precision)` otherwise (the source defaults
`precision` to 2; the precision is passed explicitly here). -/
def formatNumber (value : JSNum) (precision : Nat) : String :=
  match value with
  | JSNum.nan => "—"
  | JSNum.posInf => "—"
  | JSNum.negInf => "—"
  | JSNum.finite v => toFixedQ v precision

/-! ## Camera model (`CanvasView.tsx`) -/

/-- `MIN_ZOOM` from `CanvasView.tsx`. -/
def MIN_ZOOM : ℚ := 20

/-- `MAX_ZOOM` from `CanvasView.tsx`. -/
def MAX_ZOOM : ℚ := 400

/-- `worldToScreen` from `CanvasView.tsx`. -/
def worldToScreen (cam : Camera) (point : Vector2) (width height : ℚ) :
    ScreenPoint :=
  { x := (point.x - cam.offsetX) * cam.zoom + width / 2
    y := height / 2 - (point.y - cam.offsetY) * cam.zoom }

/-- `screenToWorld` from `CanvasView.tsx`. -/
def screenToWorld (cam : Camera) (point : ScreenPoint) (width height : ℚ) :
    Vector2 :=
  { x := (point.x - width / 2) / cam.zoom + cam.offsetX
    y := -(point.y - height / 2) / cam.zoom + cam.offsetY }

/-! ## App-state handlers (`App.tsx`) -/

/-- `handleTChange` from `App.tsx`: the t-slider callback,
`setState(prev => ({ ...prev, t: clamp(value, 0, 1), isPlaying: false }))`. -/
def handleTChange (s : AppState) (value : ℚ) : AppState :=
  { s with t := clamp value 0 1, isPlaying := false }

/-- `handlePinVector` from `App.tsx`: appends the current probe vector with
its transformed image (`transformedProbe`, the memoised
`multiplyMatrixVector(state.matrix, state.probeVector)`) and keeps the last
six entries via `.slice(-6)`; `.slice(-6)` on a list of length `n` keeps the
final `min n 6` elements, i.e. drops the first `n - 6`. -/
def handlePinVector (s : AppState) : AppState :=
  let transformedProbe := multiplyMatrixVector s.matrix s.probeVector
  let newPin : PinnedVector :=
    { x := s.probeVector.x, y := s.probeVector.y
      Tx := transformedProbe.x, Ty := transformedProbe.y }
  let appended := s.pinnedVectors ++ [newPin]
  let limitedPins := appended.drop (appended.length - 6)
  { s with pinnedVectors := limitedPins }

/-- `handleAnimationFrame` from `App.tsx`. The second argument is the elapsed
milliseconds `delta`; the third is the current value of `directionRef`; the
result pairs the next state with the next `directionRef` value. The source
speed constant `0.0004` is exactly the rational 1/2500. -/
def handleAnimationFrame (s : AppState) (delta direction0 : ℚ) :
    AppState × ℚ :=
  if s.isPlaying then
    let speed : ℚ := 0.0004
    let nextT := s.t + delta * speed * direction0
    if nextT ≥ 1 then ({ s with t := 1 }, -1)
    else if nextT ≤ 0 then ({ s with t := 0 }, 1)
    else ({ s with t := nextT }, direction0)
  else (s, direction0)

/-! ## Pointer and wheel handlers (`CanvasView.tsx`) -/

/-- Drag mode held in `dragModeRef` of `CanvasView.tsx`. -/
inductive DragMode where
  | idle
  | vector
  | pan
  deriving DecidableEq, Repr

/-- Result of one `handlePointerMove` call: the emitted `onProbeChange` and
`onCameraChange` payloads (if any) plus the updated `pointerMovedRef` and
`lastPointerRef` values. -/
structure PointerMoveResult where
  probeOut : Option Vector2
  cameraOut : Option Camera
  pointerMoved : Bool
  lastPointer : ScreenPoint
  deriving DecidableEq, Repr

/-- `handlePointerMove` from `CanvasView.tsx`: `point` is the pointer
position relative to the canvas; `dx`, `dy` are its deltas against
`lastPointerRef`; the `'vector'` branch emits `onProbeChange`, the `'pan'`
branch emits `onCameraChange`, and `lastPointerRef` is always updated. -/
def handlePointerMove (mode : DragMode) (lastPointer : ScreenPoint)
    (movedBefore : Bool) (cam : Camera) (width height : ℚ)
    (point : ScreenPoint) : PointerMoveResult :=
  let dx := point.x - lastPointer.x
  let dy := point.y - lastPointer.y
  match mode with
  | DragMode.vector =>
      { probeOut := some (screenToWorld cam point width height)
        cameraOut := none
        pointerMoved := true
        lastPointer := point }
  | DragMode.pan =>
      { probeOut := none
        cameraOut := some
          { offsetX := cam.offsetX - dx / cam.zoom
            offsetY := cam.offsetY + dy / cam.zoom
            zoom := cam.zoom }
        pointerMoved := true
        lastPointer := point }
  | DragMode.idle =>
      { probeOut := none
        cameraOut := none
        pointerMoved := movedBefore
        lastPointer := point }

/-- `handleWheel` from `CanvasView.tsx`. The argument `zoomFactor` stands for
`Math.exp(-event.deltaY * 0.001)`: the exponential is a platform builtin
whose exact float value is some rational, so theorems quantify over every
rational factor, covering every value the source expression can take. -/
def handleWheel (cam : Camera) (width height : ℚ) (pointer : ScreenPoint)
    (zoomFactor : ℚ) : Camera :=
  let newZoom := clamp (cam.zoom * zoomFactor) MIN_ZOOM MAX_ZOOM
  let beforeZoom := screenToWorld cam pointer width height
  let afterZoom : Vector2 :=
    { x := (pointer.x - width / 2) / newZoom + cam.offsetX
      y := -(pointer.y - height / 2) / newZoom + cam.offsetY }
  { offsetX := cam.offsetX + (beforeZoom.x - afterZoom.x)
    offsetY := cam.offsetY + (beforeZoom.y - afterZoom.y)
    zoom := newZoom }

/-! ## Claim theorems -/

/-- C1: for every matrix `{a, b, c, d}` and every vector `(x, y)`,
`multiplyMatrixVector` returns exactly `(a·x + b·y, c·x + d·y)`; it is a
total function of its numeric inputs, with no failure case. -/
theorem multiplyMatrixVector_matches_scalar_formula (m : Matrix)
    (v : Vector2) :
    multiplyMatrixVector m v =
      { x := m.a * v.x + m.b * v.y, y := m.c * v.x + m.d * v.y } := rfl

/-- C5: for every camera with zoom in its valid bounds, every viewport size,
and every world point `p`, `screenToWorld (worldToScreen p)` returns `p`
exactly (so certainly within floating-point tolerance): `screenToWorld` is
the inverse of `worldToScreen`. -/
theorem screenToWorld_inverse_of_worldToScreen (cam : Camera) (w h : ℚ)
    (p : Vector2) (hlo : MIN_ZOOM ≤ cam.zoom) (hhi : cam.zoom ≤ MAX_ZOOM) :
    screenToWorld cam (worldToScreen cam p w h) w h = p := by
  have hz : cam.zoom ≠ 0 := by
    have h20 : (0 : ℚ) < MIN_ZOOM := by norm_num [MIN_ZOOM]
    exact ne_of_gt (lt_of_lt_of_le h20 hlo)
  ext
  · simp only [screenToWorld, worldToScreen]
    field_simp
  · simp only [screenToWorld, worldToScreen]
    field_simp

/-- C5 witness: a concrete round trip through the camera at zoom 80. -/
theorem screenToWorld_inverse_of_worldToScreen_witness :
    MIN_ZOOM ≤ (Camera.mk 3 (-2) 80).zoom
      ∧ (Camera.mk 3 (-2) 80).zoom ≤ MAX_ZOOM
      ∧ screenToWorld (Camera.mk 3 (-2) 80)
          (worldToScreen (Camera.mk 3 (-2) 80) (Vector2.mk 1 2) 800 600)
          800 600 = Vector2.mk 1 2 :=
  ⟨by decide, by decide,
    screenToWorld_inverse_of_worldToScreen (Camera.mk 3 (-2) 80) 800 600
      (Vector2.mk 1 2) (by decide) (by decide)⟩

/-- C6: for every starting zoom in `[20, 400]` and every wheel zoom factor
(standing for `exp(-deltaY * 0.001)` at any wheel delta), the zoom produced
by the wheel handler stays in `[20, 400]`. -/
theorem handleWheel_zoom_stays_bounded (cam : Camera) (w h : ℚ)
    (ptr : ScreenPoint) (f : ℚ) (hlo : MIN_ZOOM ≤ cam.zoom)
    (hhi : cam.zoom ≤ MAX_ZOOM) :
    MIN_ZOOM ≤ (handleWheel cam w h ptr f).zoom
      ∧ (handleWheel cam w h ptr f).zoom ≤ MAX_ZOOM := by
  constructor
  · exact le_min (by norm_num [MIN_ZOOM, MAX_ZOOM]) (le_max_left _ _)
  · exact min_le_left _ _

/-- C6 witness: a concrete wheel event at zoom 80 with factor 100 (a huge
zoom-in request) stays inside the bounds. -/
theorem handleWheel_zoom_stays_bounded_witness :
    MIN_ZOOM ≤ (Camera.mk 0 0 80).zoom
      ∧ (Camera.mk 0 0 80).zoom ≤ MAX_ZOOM
      ∧ MIN_ZOOM ≤ (handleWheel (Camera.mk 0 0 80) 800 600
          (ScreenPoint.mk 100 100) 100).zoom
      ∧ (handleWheel (Camera.mk 0 0 80) 800 600
          (ScreenPoint.mk 100 100) 100).zoom ≤ MAX_ZOOM :=
  ⟨by decide, by decide,
    (handleWheel_zoom_stays_bounded (Camera.mk 0 0 80) 800 600
      (ScreenPoint.mk 100 100) 100 (by decide) (by decide)).1,
    (handleWheel_zoom_stays_bounded (Camera.mk 0 0 80) 800 600
      (ScreenPoint.mk 100 100) 100 (by decide) (by decide)).2⟩

/-- C7: zoom-to-cursor. For every camera state, viewport size, cursor screen
position and wheel zoom factor, the camera produced by `handleWheel` maps the
cursor's screen position to exactly the same world point as the camera
before the event did. -/
theorem handleWheel_preserves_cursor_world_point (cam : Camera) (w h : ℚ)
    (ptr : ScreenPoint) (f : ℚ) :
    screenToWorld (handleWheel cam w h ptr f) ptr w h =
      screenToWorld cam ptr w h := by
  ext
  · simp only [handleWheel, screenToWorld]
    ring
  · simp only [handleWheel, screenToWorld]
    ring

/-- C8: in the `panning` state, a pointer move with pixel delta `(dx, dy)`
emits a camera whose offset is shifted by `(-dx / zoom, +dy / zoom)` — the
drag delta divided by zoom, Y inverted relative to screen coordinates — with
the zoom unchanged, and sets the moved flag; consequently every world point
moves on screen by exactly the drag delta (the content follows the drag). -/
theorem handlePointerMove_pan_shifts_offset (last : ScreenPoint)
    (moved : Bool) (cam : Camera) (w h : ℚ) (pt : ScreenPoint)
    (hz : 0 < cam.zoom) :
    (handlePointerMove DragMode.pan last moved cam w h pt).cameraOut =
        some (Camera.mk (cam.offsetX - (pt.x - last.x) / cam.zoom)
          (cam.offsetY + (pt.y - last.y) / cam.zoom) cam.zoom)
      ∧ (handlePointerMove DragMode.pan last moved cam w h pt).pointerMoved
          = true
      ∧ ∀ q : Vector2,
          worldToScreen (Camera.mk (cam.offsetX - (pt.x - last.x) / cam.zoom)
              (cam.offsetY + (pt.y - last.y) / cam.zoom) cam.zoom) q w h =
            ScreenPoint.mk ((worldToScreen cam q w h).x + (pt.x - last.x))
              ((worldToScreen cam q w h).y + (pt.y - last.y)) := by
  have hz' : cam.zoom ≠ 0 := ne_of_gt hz
  refine ⟨rfl, rfl, fun q => ?_⟩
  ext
  · simp only [worldToScreen]
    field_simp
    ring
  · simp only [worldToScreen]
    field_simp
    ring

/-- C8 witness: a concrete pan move at zoom 80 dragging from (10, 10) to
(25, 4). -/
theorem handlePointerMove_pan_shifts_offset_witness :
    0 < (Camera.mk 1 2 80).zoom
      ∧ (handlePointerMove DragMode.pan (ScreenPoint.mk 10 10) false
            (Camera.mk 1 2 80) 800 600 (ScreenPoint.mk 25 4)).cameraOut =
          some (Camera.mk
            ((Camera.mk 1 2 80).offsetX
              - ((ScreenPoint.mk 25 4).x - (ScreenPoint.mk 10 10).x) / 80)
            ((Camera.mk 1 2 80).offsetY
              + ((ScreenPoint.mk 25 4).y - (ScreenPoint.mk 10 10).y) / 80)
            80)
        ∧ (handlePointerMove DragMode.pan (ScreenPoint.mk 10 10) false
            (Camera.mk 1 2 80) 800 600 (ScreenPoint.mk 25 4)).pointerMoved
            = true
        ∧ ∀ q : Vector2,
            worldToScreen (Camera.mk
              ((Camera.mk 1 2 80).offsetX
                - ((ScreenPoint.mk 25 4).x - (ScreenPoint.mk 10 10).x) / 80)
              ((Camera.mk 1 2 80).offsetY
                + ((ScreenPoint.mk 25 4).y - (ScreenPoint.mk 10 10).y) / 80)
              80) q 800 600 =
              ScreenPoint.mk
                ((worldToScreen (Camera.mk 1 2 80) q 800 600).x
                  + ((ScreenPoint.mk 25 4).x - (ScreenPoint.mk 10 10).x))
                ((worldToScreen (Camera.mk 1 2 80) q 800 600).y
                  + ((ScreenPoint.mk 25 4).y - (ScreenPoint.mk 10 10).y)) :=
  ⟨by decide,
    handlePointerMove_pan_shifts_offset (ScreenPoint.mk 10 10) false
      (Camera.mk 1 2 80) 800 600 (ScreenPoint.mk 25 4) (by decide)⟩

/-- C10: the manual t-slider update stores the clamped value, sets
`isPlaying` to false (stopping a running animation), and leaves every other
state field — matrix, probe vector, pinned vectors, camera, grid mode,
preset id — unchanged. -/
theorem handleTChange_stops_playback_only_t (s : AppState) (v : ℚ) :
    (handleTChange s v).t = clamp v 0 1
      ∧ (handleTChange s v).isPlaying = false
      ∧ (handleTChange s v).matrix = s.matrix
      ∧ (handleTChange s v).probeVector = s.probeVector
      ∧ (handleTChange s v).pinnedVectors = s.pinnedVectors
      ∧ (handleTChange s v).camera = s.camera
      ∧ (handleTChange s v).gridMode = s.gridMode
      ∧ (handleTChange s v).presetId = s.presetId :=
  ⟨rfl, rfl, rfl, rfl, rfl, rfl, rfl, rfl⟩

/-- The pin captured by `handlePinVector`: the current probe vector together
with its transformed image. -/
def pinOf (s : AppState) : PinnedVector :=
  { x := s.probeVector.x, y := s.probeVector.y
    Tx := (multiplyMatrixVector s.matrix s.probeVector).x
    Ty := (multiplyMatrixVector s.matrix s.probeVector).y }

/-- Behaviour of the `.slice(-6)` truncation used by `handlePinVector`. -/
theorem sliceLast6_spec (l : List PinnedVector) (p : PinnedVector) :
    ((l ++ [p]).drop ((l ++ [p]).length - 6)).length ≤ 6
      ∧ (l.length < 6 → (l ++ [p]).drop ((l ++ [p]).length - 6) = l ++ [p])
      ∧ (l.length = 6 →
          (l ++ [p]).drop ((l ++ [p]).length - 6) = l.tail ++ [p]) := by
  refine ⟨?_, fun h => ?_, fun h => ?_⟩
  · rw [List.length_drop]
    simp only [List.length_append, List.length_singleton]
    omega
  · have h0 : (l ++ [p]).length - 6 = 0 := by
      simp only [List.length_append, List.length_singleton]
      omega
    rw [h0, List.drop_zero]
  · have h1 : (l ++ [p]).length - 6 = 1 := by
      simp only [List.length_append, List.length_singleton]
      omega
    rw [h1, List.drop_append_of_le_length (by omega), List.drop_one]

/-- C4: pinning appends the current probe vector with its transformed image;
the list stays capped at six entries, with the oldest entry evicted when six
are already held, keeping the newest six in order. -/
theorem handlePinVector_capped_append (s : AppState)
    (h : s.pinnedVectors.length ≤ 6) :
    (handlePinVector s).pinnedVectors.length ≤ 6
      ∧ (s.pinnedVectors.length < 6 →
          (handlePinVector s).pinnedVectors = s.pinnedVectors ++ [pinOf s])
      ∧ (s.pinnedVectors.length = 6 →
          (handlePinVector s).pinnedVectors
            = s.pinnedVectors.tail ++ [pinOf s]) := by
  have hs := sliceLast6_spec s.pinnedVectors (pinOf s)
  simp only [handlePinVector, pinOf] at *
  exact hs

/-- Sample state used to instantiate the state-handler theorems. -/
def sampleState : AppState :=
  AppState.mk identityMatrix 0 (Vector2.mk 1 1) [] (Camera.mk 0 0 80)
    GridMode.both (some "identity") true

/-- C4 witness: pinning onto the sample state's empty pin list. -/
theorem handlePinVector_capped_append_witness :
    sampleState.pinnedVectors.length ≤ 6
      ∧ (handlePinVector sampleState).pinnedVectors.length ≤ 6
      ∧ (sampleState.pinnedVectors.length < 6 →
          (handlePinVector sampleState).pinnedVectors
            = sampleState.pinnedVectors ++ [pinOf sampleState])
      ∧ (sampleState.pinnedVectors.length = 6 →
          (handlePinVector sampleState).pinnedVectors
            = sampleState.pinnedVectors.tail ++ [pinOf sampleState]) :=
  ⟨by decide, (handlePinVector_capped_append sampleState (by decide)).1,
    (handlePinVector_capped_append sampleState (by decide)).2.1,
    (handlePinVector_capped_append sampleState (by decide)).2.2⟩

/-- C2: with playback active, one animation tick moves t to the clamp of
`t + delta * 0.0004 * direction` into `[0, 1]`; overshoot past 1 flips the
direction to −1, undershoot below 0 flips it to +1, and the direction never
changes unless the tick ends on the 0 or 1 boundary (ping-pong sweep). -/
theorem handleAnimationFrame_pingpong_step (s : AppState) (delta dir : ℚ)
    (hp : s.isPlaying = true) (h0 : 0 ≤ s.t) (h1 : s.t ≤ 1) :
    (handleAnimationFrame s delta dir).1.t
        = clamp (s.t + delta * 0.0004 * dir) 0 1
      ∧ (1 < s.t + delta * 0.0004 * dir →
          (handleAnimationFrame s delta dir).2 = -1)
      ∧ (s.t + delta * 0.0004 * dir < 0 →
          (handleAnimationFrame s delta dir).2 = 1)
      ∧ ((handleAnimationFrame s delta dir).2 ≠ dir →
          (handleAnimationFrame s delta dir).1.t = 0
            ∨ (handleAnimationFrame s delta dir).1.t = 1) := by
  simp only [handleAnimationFrame, hp, if_true]
  split_ifs with hge hle
  · refine ⟨?_, fun _ => rfl, fun hlt => ?_, fun _ => Or.inr rfl⟩
    · rw [clamp, max_eq_right (by linarith), min_eq_left (by linarith)]
    · exfalso
      linarith
  · refine ⟨?_, fun hgt => ?_, fun _ => rfl, fun _ => Or.inl rfl⟩
    · rw [clamp, max_eq_left hle, min_eq_right (by norm_num)]
    · exfalso
      linarith
  · push_neg at hge hle
    refine ⟨?_, fun hgt => ?_, fun hlt => ?_, fun hne => ?_⟩
    · rw [clamp, max_eq_right (le_of_lt hle), min_eq_right (le_of_lt hge)]
    · exfalso
      linarith
    · exfalso
      linarith
    · exact absurd rfl hne

/-- C2 witness: one 500 ms tick from t = 0 with direction +1 on the playing
sample state. -/
theorem handleAnimationFrame_pingpong_step_witness :
    sampleState.isPlaying = true
      ∧ 0 ≤ sampleState.t
      ∧ sampleState.t ≤ 1
      ∧ ((handleAnimationFrame sampleState 500 1).1.t
            = clamp (sampleState.t + 500 * 0.0004 * 1) 0 1
          ∧ (1 < sampleState.t + 500 * 0.0004 * 1 →
              (handleAnimationFrame sampleState 500 1).2 = -1)
          ∧ (sampleState.t + 500 * 0.0004 * 1 < 0 →
              (handleAnimationFrame sampleState 500 1).2 = 1)
          ∧ ((handleAnimationFrame sampleState 500 1).2 ≠ 1 →
              (handleAnimationFrame sampleState 500 1).1.t = 0
                ∨ (handleAnimationFrame sampleState 500 1).1.t = 1)) :=
  ⟨rfl, by decide, by decide,
    handleAnimationFrame_pingpong_step sampleState 500 1 rfl (by decide)
      (by decide)⟩

/-- C3: t always stays in `[0, 1]`: the slider update clamps every input
value into `[0, 1]`, and from any t in `[0, 1]` an animation tick with any
delta lands back in `[0, 1]`. -/
theorem t_stays_clamped_in_unit_interval (s : AppState) (v delta dir : ℚ)
    (h0 : 0 ≤ s.t) (h1 : s.t ≤ 1) :
    (0 ≤ (handleTChange s v).t ∧ (handleTChange s v).t ≤ 1)
      ∧ (0 ≤ (handleAnimationFrame s delta dir).1.t
          ∧ (handleAnimationFrame s delta dir).1.t ≤ 1) := by
  constructor
  · constructor
    · exact le_min (by norm_num) (le_max_left 0 v)
    · exact min_le_left 1 (max 0 v)
  · simp only [handleAnimationFrame]
    by_cases hp : s.isPlaying = true
    · simp only [hp, if_true]
      split_ifs with hge hle
      · norm_num
      · norm_num
      · push_neg at hge hle
        exact ⟨le_of_lt hle, le_of_lt hge⟩
    · simp only [if_neg hp]
      exact ⟨h0, h1⟩

/-- C3 witness: an out-of-range slider value and a long tick on the sample
state. -/
theorem t_stays_clamped_in_unit_interval_witness :
    0 ≤ sampleState.t
      ∧ sampleState.t ≤ 1
      ∧ ((0 ≤ (handleTChange sampleState 7).t
            ∧ (handleTChange sampleState 7).t ≤ 1)
          ∧ (0 ≤ (handleAnimationFrame sampleState 9000 1).1.t
              ∧ (handleAnimationFrame sampleState 9000 1).1.t ≤ 1)) :=
  ⟨by decide, by decide,
    t_stays_clamped_in_unit_interval sampleState 7 9000 1 (by decide)
      (by decide)⟩

/-- Rounding accuracy of the modelled `toFixed`: the scaled integer is
within half a unit of the scaled magnitude. -/
theorem toFixedInt_close (v : ℚ) (p : Nat) :
    |(toFixedInt v p : ℚ) - |v| * 10 ^ p| ≤ 1 / 2 := by
  have hy : (0 : ℚ) ≤ |v| * 10 ^ p := mul_nonneg (abs_nonneg v) (by positivity)
  have hnn : (0 : ℤ) ≤ ⌊|v| * (10 : ℚ) ^ p + 1 / 2⌋ := by
    apply Int.floor_nonneg.2
    linarith
  have hcast : ((toFixedInt v p : ℕ) : ℚ)
      = ((⌊|v| * (10 : ℚ) ^ p + 1 / 2⌋ : ℤ) : ℚ) := by
    rw [toFixedInt]
    exact_mod_cast congrArg Int.cast (Int.toNat_of_nonneg hnn)
  have hfl : ((⌊|v| * (10 : ℚ) ^ p + 1 / 2⌋ : ℤ) : ℚ)
      ≤ |v| * 10 ^ p + 1 / 2 := Int.floor_le _
  have hfl2 : |v| * (10 : ℚ) ^ p + 1 / 2
      < ⌊|v| * (10 : ℚ) ^ p + 1 / 2⌋ + 1 := Int.lt_floor_add_one _
  rw [hcast, abs_le]
  constructor <;> linarith

/-- C9: `formatNumber` is total; it renders the em-dash sentinel for NaN and
both infinities, and renders a finite value at fixed decimal precision: the
`toFixed` output, whose denoted value is within half an ulp of the input. -/
theorem formatNumber_finite_and_nonfinite (v : ℚ) (p : Nat) :
    formatNumber JSNum.nan p = "—"
      ∧ formatNumber JSNum.posInf p = "—"
      ∧ formatNumber JSNum.negInf p = "—"
      ∧ formatNumber (JSNum.finite v) p = toFixedQ v p
      ∧ |toFixedVal v p - v| ≤ 1 / (2 * 10 ^ p) := by
  refine ⟨rfl, rfl, rfl, rfl, ?_⟩
  have hp10 : (0 : ℚ) < 10 ^ p := by positivity
  have key := toFixedInt_close v p
  have habs : |toFixedVal v p - v|
      = |(toFixedInt v p : ℚ) - |v| * 10 ^ p| / 10 ^ p := by
    rcases lt_or_le v 0 with hv | hv
    · have hval : toFixedVal v p - v
          = -(((toFixedInt v p : ℚ) - |v| * 10 ^ p) / 10 ^ p) := by
        rw [toFixedVal, if_pos hv, abs_of_neg hv]
        field_simp
        ring
      rw [hval, abs_neg, abs_div, abs_of_pos hp10]
    · have hval : toFixedVal v p - v
          = ((toFixedInt v p : ℚ) - |v| * 10 ^ p) / 10 ^ p := by
        rw [toFixedVal, if_neg (not_lt.2 hv), abs_of_nonneg hv]
        field_simp
        ring
      rw [hval, abs_div, abs_of_pos hp10]
  rw [habs]
  calc |(toFixedInt v p : ℚ) - |v| * 10 ^ p| / 10 ^ p
      ≤ (1 / 2) / 10 ^ p := by gcongr
    _ = 1 / (2 * 10 ^ p) := by ring

end LinTrans
